import Mathlib

/-!
Verification of the NSIS installer build orchestration of electron-builder
(`packages/app-builder-lib/src/targets/nsis/NsisTarget.ts` and the NSIS
`installApplicationFiles` macro of the generated installer).

The TypeScript code is shallowly embedded: option objects become structures of
`Option Bool` / `Option String` fields (`undefined` is `none`), the JavaScript
truthiness tests `x === true` and `x !== false` become `obTrue` / `neFalse`,
the mutable `defines` record becomes an ordered association list of
assignments, and `throw new InvalidConfigurationError` becomes `Except.error`.
-/

namespace NsisTargetModel

/-- JavaScript test `x === true` on an optional boolean field. -/
def obTrue : Option Bool → Bool
  | some true => true
  | _ => false

/-- JavaScript test `x !== false` on an optional boolean field. -/
def neFalse : Option Bool → Bool
  | some false => false
  | _ => true

/-- Architectures of builder-util's `Arch` enum. -/
inductive Arch where
  | ia32
  | x64
  | armv7l
  | arm64
  | universal
deriving DecidableEq, Repr

/-- The boolean NSIS options consulted by `NsisTarget` (from `nsisOptions.ts`);
`none` models an unset (`undefined`) field. -/
structure NsisOptions where
  oneClick : Option Bool := none
  perMachine : Option Bool := none
  selectPerMachineByDefault : Option Bool := none
  allowElevation : Option Bool := none
  allowToAddShortcut : Option Bool := none
  allowToChangeInstallationDirectory : Option Bool := none
  removeDefaultUninstallWelcomePage : Option Bool := none
  runAfterFinish : Option Bool := none
  deleteAppDataOnUninstall : Option Bool := none
  displayLanguageSelector : Option Bool := none
  packElevateHelper : Option Bool := none
  buildUniversalInstaller : Option Bool := none
  differentialPackage : Option Bool := none
deriving DecidableEq, Repr

/-- `DesktopShortcutCreationPolicy` of `CommonWindowsInstallerConfiguration`. -/
inductive DesktopShortcutCreationPolicy where
  | fresh
  | always
  | never
deriving DecidableEq, Repr

/-- The resource lookups and effective common options consumed by
`NsisTarget.configureDefines`: results of `packager.getResource` calls and of
`getEffectiveOptions` (external collaborators of the orchestrator). -/
structure ResourceEnv where
  installerHeaderIcon : Option String := none
  installerHeader : Option String := none
  installerSidebar : Option String := none
  uninstallerSidebar : Option String := none
  uninstallerIcon : Option String := none
  menuCategory : Option String := none
  shortcutName : String := "App"
  isCreateDesktopShortcut : DesktopShortcutCreationPolicy := .fresh
  isCreateStartMenuShortcut : Bool := true
  uninstallDisplayName : String := "App 1.0.0"
deriving DecidableEq, Repr

/-- A defines table: ordered assignments of name to value, where `none` models
an NSIS presence-only (value-less) define. Every phase of `configureDefines`
assigns a disjoint set of names, so the association list has unique keys. -/
abbrev Defines := List (String × Option String)

/-- Default sidebar bitmap used when no `installerSidebar` resource exists. -/
def nsisDefaultSidebar : String := "${NSISDIR}\\Contrib\\Graphics\\Wizard\\nsis3-metro.bmp"

/-- Error message of the `allowToChangeInstallationDirectory` configuration check. -/
def msgAllowToChangeInstallDir : String :=
  "allowToChangeInstallationDirectory makes sense only for assisted installer (please set oneClick to false)"

/-- Error message of the `allowToAddShortcut` configuration check. -/
def msgAllowToAddShortcut : String :=
  "allowToAddShortcut makes sense only for assisted installer (please set oneClick to false)"

/-- Embedding of `NsisTarget.configureDefines` (NsisTarget.ts lines 470-581).
The two `InvalidConfigurationError` throws are surfaced as `Except.error`; they
are checked up front here, which preserves the observable behaviour because a
thrown error discards the partially built defines object. Assignments made
inside the `AsyncTaskManager` tasks (header icon, header image, sidebar
bitmaps, uninstaller icon) complete at `awaitTasks`, after all synchronous
assignments; they are appended at the end in task-registration order. -/
def configureDefines (oneClick : Bool) (o : NsisOptions) (env : ResourceEnv) :
    Except String Defines :=
  if obTrue o.allowToChangeInstallationDirectory && oneClick then
    Except.error msgAllowToChangeInstallDir
  else if obTrue o.allowToAddShortcut && oneClick then
    Except.error msgAllowToAddShortcut
  else
    let modeDefines : List (String × Option String) :=
      if oneClick then
        [("ONE_CLICK", none)]
          ++ (if neFalse o.runAfterFinish then [("RUN_AFTER_FINISH", none)] else [])
      else
        (if o.runAfterFinish = some false then [("HIDE_RUN_AFTER_FINISH", none)] else [])
          ++ (if neFalse o.allowElevation then [("MULTIUSER_INSTALLMODE_ALLOW_ELEVATION", none)] else [])
    let installModeDefines : List (String × Option String) :=
      (if o.perMachine = some true then [("INSTALL_MODE_PER_ALL_USERS", none)] else [])
        ++ (if o.selectPerMachineByDefault = some true then [("INSTALL_MODE_PER_ALL_USERS_DEFAULT", none)] else [])
        ++ (if !oneClick || o.perMachine = some true then [("INSTALL_MODE_PER_ALL_USERS_REQUIRED", none)] else [])
    let assistedDefines : List (String × Option String) :=
      (if obTrue o.allowToChangeInstallationDirectory then [("allowToChangeInstallationDirectory", none)] else [])
        ++ (if obTrue o.allowToAddShortcut then [("ALLOW_TO_ADD_SHORTCUT", none)] else [])
        ++ (if obTrue o.removeDefaultUninstallWelcomePage then [("removeDefaultUninstallWelcomePage", none)] else [])
    let commonDefines : List (String × Option String) :=
      (env.menuCategory.elim [] fun m => [("MENU_FILENAME", some m)])
        ++ [("SHORTCUT_NAME", some env.shortcutName)]
        ++ (if obTrue o.deleteAppDataOnUninstall then [("DELETE_APP_DATA_ON_UNINSTALL", none)] else [])
        ++ [("UNINSTALL_DISPLAY_NAME", some env.uninstallDisplayName)]
        ++ (if env.isCreateDesktopShortcut = .never then [("DO_NOT_CREATE_DESKTOP_SHORTCUT", none)] else [])
        ++ (if env.isCreateDesktopShortcut = .always then [("RECREATE_DESKTOP_SHORTCUT", none)] else [])
        ++ (if !env.isCreateStartMenuShortcut then [("DO_NOT_CREATE_START_MENU_SHORTCUT", none)] else [])
        ++ (if o.displayLanguageSelector = some true then [("DISPLAY_LANG_SELECTOR", none)] else [])
    let modeAsyncDefines : List (String × Option String) :=
      if oneClick then
        env.installerHeaderIcon.elim [] fun p => [("HEADER_ICO", some p)]
      else
        (env.installerHeader.elim [] fun p =>
          [("MUI_HEADERIMAGE", none), ("MUI_HEADERIMAGE_RIGHT", none), ("MUI_HEADERIMAGE_BITMAP", some p)])
          ++ (let bitmap := env.installerSidebar.getD nsisDefaultSidebar
              [("MUI_WELCOMEFINISHPAGE_BITMAP", some bitmap),
               ("MUI_UNWELCOMEFINISHPAGE_BITMAP", some (env.uninstallerSidebar.getD bitmap))])
    let uninstallerIconAsyncDefines : List (String × Option String) :=
      env.uninstallerIcon.elim [] fun p => [("UNINSTALLER_ICON", some p), ("MUI_UNICON", some p)]
    Except.ok (modeDefines ++ installModeDefines ++ assistedDefines ++ commonDefines
      ++ modeAsyncDefines ++ uninstallerIconAsyncDefines)

/-- Whether an `Except` result is a success (`Except.ok`). -/
def exceptIsOk {ε α : Type} : Except ε α → Bool
  | Except.ok _ => true
  | Except.error _ => false

theorem mem_ite_list {α : Type} (a : α) (c : Prop) [Decidable c] (l1 l2 : List α) :
    (a ∈ if c then l1 else l2) ↔ (c ∧ a ∈ l1) ∨ (¬c ∧ a ∈ l2) := by
  split <;> simp [*]

theorem mem_option_elim {α β : Type} (a : α) (x : Option β) (f : β → List α) :
    (a ∈ x.elim [] f) ↔ ∃ m, x = some m ∧ a ∈ f m := by
  cases x <;> simp

/-- One-click configuration whose `removeDefaultUninstallWelcomePage` flag is set. -/
def welcomePageOneClickOpts : NsisOptions :=
  { perMachine := some false, removeDefaultUninstallWelcomePage := some true }

/-- Defines produced for `welcomePageOneClickOpts` under default resources. -/
def welcomePageOneClickDefines : Defines :=
  match configureDefines (neFalse welcomePageOneClickOpts.oneClick) welcomePageOneClickOpts {} with
  | Except.ok d => d
  | Except.error _ => []

/-- A plain one-click configuration with no assisted-only flag set. -/
def plainOneClickOpts : NsisOptions := { perMachine := some false }

/-- Defines produced for `plainOneClickOpts` under default resources. -/
def plainOneClickDefines : Defines :=
  match configureDefines (neFalse plainOneClickOpts.oneClick) plainOneClickOpts {} with
  | Except.ok d => d
  | Except.error _ => []

/-- One-click configuration that sets the assisted-only `allowElevation` flag. -/
def elevationOneClickOpts : NsisOptions := { allowElevation := some false }

/-- Defines produced for `elevationOneClickOpts` under default resources. -/
def elevationOneClickDefines : Defines :=
  match configureDefines (neFalse elevationOneClickOpts.oneClick) elevationOneClickOpts {} with
  | Except.ok d => d
  | Except.error _ => []

/-- One-click configuration that sets `allowToChangeInstallationDirectory`. -/
def changeDirOneClickOpts : NsisOptions := { allowToChangeInstallationDirectory := some true }

/-- C1 (amended): for every configuration with `perMachine=false` and effective
one-click mode (`oneClick !== false`), a successfully produced defines table
contains neither the allow-elevation define
(`MULTIUSER_INSTALLMODE_ALLOW_ELEVATION`) nor the shortcut-choice define
(`ALLOW_TO_ADD_SHORTCUT`); the welcome-page-removal define
(`removeDefaultUninstallWelcomePage`), however, is present exactly when its
option is set — the code applies it without any one-click guard. -/
theorem configureDefines_oneClick_omits_assisted_only_keys
    (o : NsisOptions) (env : ResourceEnv) (d : Defines)
    (hOneClick : neFalse o.oneClick = true)
    (_hPerMachine : obTrue o.perMachine = false)
    (h : configureDefines (neFalse o.oneClick) o env = Except.ok d) :
    (∀ v, ("MULTIUSER_INSTALLMODE_ALLOW_ELEVATION", v) ∉ d) ∧
    (∀ v, ("ALLOW_TO_ADD_SHORTCUT", v) ∉ d) ∧
    ((("removeDefaultUninstallWelcomePage", (none : Option String)) ∈ d) ↔
      obTrue o.removeDefaultUninstallWelcomePage = true) := by
  rw [hOneClick] at h
  unfold configureDefines at h
  by_cases h1 : obTrue o.allowToChangeInstallationDirectory <;>
    by_cases h2 : obTrue o.allowToAddShortcut <;>
      simp [h1, h2] at h
  subst h
  refine ⟨?_, ?_, ?_⟩ <;>
    simp [mem_ite_list, mem_option_elim, List.mem_append, Prod.ext_iff, h1, h2]

/-- C1 witness: at the plain one-click configuration the three assisted-only
defines are all absent from the produced table. -/
theorem configureDefines_oneClick_omits_assisted_only_keys_witness :
    ("MULTIUSER_INSTALLMODE_ALLOW_ELEVATION", (none : Option String)) ∉ plainOneClickDefines ∧
    ("ALLOW_TO_ADD_SHORTCUT", (none : Option String)) ∉ plainOneClickDefines ∧
    ("removeDefaultUninstallWelcomePage", (none : Option String)) ∉ plainOneClickDefines := by
  obtain ⟨ha, hb, hc⟩ := configureDefines_oneClick_omits_assisted_only_keys
    plainOneClickOpts {} plainOneClickDefines (by decide) (by decide) (by rfl)
  exact ⟨ha none, hb none, fun hm => absurd (hc.mp hm) (by decide)⟩

/-- C1 counterexample: a configuration with `perMachine=false` and one-click
mode whose defines table nevertheless contains the assisted-only
welcome-page-removal key, because `removeDefaultUninstallWelcomePage` is set. -/
theorem configureDefines_oneClick_welcome_page_present :
    neFalse welcomePageOneClickOpts.oneClick = true ∧
    obTrue welcomePageOneClickOpts.perMachine = false ∧
    exceptIsOk (configureDefines (neFalse welcomePageOneClickOpts.oneClick)
      welcomePageOneClickOpts {}) = true ∧
    ("removeDefaultUninstallWelcomePage", (none : Option String)) ∈ welcomePageOneClickDefines := by
  decide

/-- C2 (amended): in effective one-click mode only two of the assisted-only
flags are validated: `allowToChangeInstallationDirectory` and
`allowToAddShortcut` each raise a configuration error naming the offending
option (the error is raised by `configureDefines`, which `buildInstaller`
awaits before it enqueues the `makensis` compiler invocation); when neither is
set the configuration succeeds — in particular `allowElevation` and
`removeDefaultUninstallWelcomePage` never raise an error in one-click mode. -/
theorem configureDefines_oneClick_flag_validation (o : NsisOptions) (env : ResourceEnv)
    (hOneClick : neFalse o.oneClick = true) :
    (obTrue o.allowToChangeInstallationDirectory = true →
      configureDefines (neFalse o.oneClick) o env = Except.error msgAllowToChangeInstallDir) ∧
    (obTrue o.allowToChangeInstallationDirectory = false → obTrue o.allowToAddShortcut = true →
      configureDefines (neFalse o.oneClick) o env = Except.error msgAllowToAddShortcut) ∧
    (obTrue o.allowToChangeInstallationDirectory = false → obTrue o.allowToAddShortcut = false →
      exceptIsOk (configureDefines (neFalse o.oneClick) o env) = true) := by
  rw [hOneClick]
  refine ⟨?_, ?_, ?_⟩
  · intro ha
    simp [configureDefines, ha]
  · intro ha hb
    simp [configureDefines, ha, hb]
  · intro ha hb
    simp [configureDefines, ha, hb, exceptIsOk]

/-- C2 witness: setting `allowToChangeInstallationDirectory` in one-click mode
produces the configuration error that names the offending option. -/
theorem configureDefines_oneClick_flag_validation_witness :
    configureDefines (neFalse changeDirOneClickOpts.oneClick) changeDirOneClickOpts {} =
      Except.error msgAllowToChangeInstallDir :=
  (configureDefines_oneClick_flag_validation changeDirOneClickOpts {} (by decide)).1 (by decide)

/-- C2 counterexample: the assisted-only flag `allowElevation` set under
one-click mode raises no configuration error — `configureDefines` succeeds and
the flag is silently ignored (no elevation define is emitted). -/
theorem configureDefines_oneClick_allow_elevation_no_error :
    exceptIsOk (configureDefines (neFalse elevationOneClickOpts.oneClick)
      elevationOneClickOpts {}) = true ∧
    ("MULTIUSER_INSTALLMODE_ALLOW_ELEVATION", (none : Option String)) ∉ elevationOneClickDefines := by
  decide

/-- Fixed backoff delay of the `ensureNotBusy` probe loop, in milliseconds
(the `setTimeout(resolve, 2000)` of NsisTarget.ts line 820). -/
def ensureNotBusyDelayMs : Nat := 2000

/-- Embedding of the `ensureNotBusy` probe loop (NsisTarget.ts lines 797-826).
`locked i` says whether the `fs.open(outFile, "r+")` probe at cycle `i` fails
with `EBUSY`; any other probe outcome (success, or a non-EBUSY error) resolves
the file as not busy and lets the build proceed. The source loop is unbounded
recursion — `isBusy` re-invokes itself after the fixed delay with no attempt
counter — so it is embedded as a fuel-indexed evaluator: the loop reaches a
result exactly when some fuel suffices, and the returned probe index equals
the number of backoff delays incurred before success. -/
def ensureNotBusyRun (locked : Nat → Bool) : Nat → Nat → Option Nat
  | _, 0 => none
  | probe, fuel + 1 =>
    if locked probe then ensureNotBusyRun locked (probe + 1) fuel else some probe

/-- The `ensureNotBusy` loop on lock trace `locked` reaches no result under any
amount of fuel — i.e. the code retries forever instead of exhausting a bound. -/
def ensureNotBusyDiverges (locked : Nat → Bool) : Prop :=
  ∀ fuel, ensureNotBusyRun locked 0 fuel = none

/-- C3 counterexample: on an output file that stays locked forever, the probe
loop never terminates — there is no bound after which the build fails fatally;
the claimed bounded-attempt exhaustion does not exist in the code. -/
theorem ensureNotBusy_retries_forever : ensureNotBusyDiverges (fun _ => true) := by
  have aux : ∀ fuel probe, ensureNotBusyRun (fun _ => true) probe fuel = none := by
    intro fuel
    induction fuel with
    | zero => intro probe; rfl
    | succ n ih =>
      intro probe
      simpa [ensureNotBusyRun] using ih (probe + 1)
  exact fun fuel => aux fuel 0

/-- C3 (amended): the pre-compile exclusive-open probe retries on the fixed
2000 ms backoff without any attempt bound: if the file stays locked the loop
retries forever (see the counterexample), and if the file becomes writable
after `k` busy probe cycles the build proceeds without error after exactly `k`
backoff delays (fuel `k + 1` suffices and the successful probe index is `k`). -/
theorem ensureNotBusy_proceeds_after_k_delays (locked : Nat → Bool) (k : Nat)
    (hBusy : ∀ j, j < k → locked j = true) (hFree : locked k = false) :
    ensureNotBusyRun locked 0 (k + 1) = some k := by
  have aux : ∀ n start, (∀ j, j < n → locked (start + j) = true) →
      locked (start + n) = false →
      ensureNotBusyRun locked start (n + 1) = some (start + n) := by
    intro n
    induction n with
    | zero =>
      intro start _ hf
      simp only [Nat.add_zero] at hf
      simp [ensureNotBusyRun, hf]
    | succ m ih =>
      intro start hb hf
      have h0 : locked start = true := by simpa using hb 0 (Nat.succ_pos m)
      have hrec := ih (start + 1)
        (fun j hj => by
          have := hb (j + 1) (by omega)
          simpa [Nat.add_comm, Nat.add_left_comm, Nat.add_assoc] using this)
        (by
          have : start + 1 + m = start + (m + 1) := by omega
          rw [this]; exact hf)
      have harith : start + 1 + m = start + (m + 1) := by omega
      rw [harith] at hrec
      have step : ensureNotBusyRun locked start (m + 1 + 1) =
          if locked start then ensureNotBusyRun locked (start + 1) (m + 1) else some start := rfl
      simpa [step, h0] using hrec
  simpa using aux k 0 (by simpa using hBusy) (by simpa using hFree)

/-- C3 witness: a file locked for exactly 2 probe cycles and then released lets
the build proceed after exactly 2 backoff delays. -/
theorem ensureNotBusy_proceeds_after_k_delays_witness :
    ensureNotBusyRun (fun n => decide (n < 2)) 0 3 = some 2 :=
  ensureNotBusy_proceeds_after_k_delays (fun n => decide (n < 2)) 2 (by decide) (by decide)

/-- Observable outcome of the queued installer build task. -/
structure BuildTaskOutcome where
  result : Except String Unit
  uninstallerOutFileSet : Bool
  uninstallerUnlinked : Bool

/-- Embedding of the queued build task of `NsisTarget.buildInstaller`
(NsisTarget.ts lines 352-362) for a non-portable build unit whose uninstaller
sub-build succeeded. `computeScriptAndSignUninstaller` sets the
`UNINSTALLER_OUT_FILE` define unless a custom `installer.nsi` script is used;
then `executeMakensis` runs the parent compiler invocation, and only on the
source line after that `await` does `Promise.all([sign, unlink(...)])` delete
the temporary uninstaller. There is no try/finally around the `await`, so a
parent-compiler failure skips the unlink. -/
def runQueuedBuildTask (hasCustomScript : Bool) (parentMakensisOk : Bool) : BuildTaskOutcome :=
  let outFileSet := !hasCustomScript
  if parentMakensisOk then
    { result := Except.ok (), uninstallerOutFileSet := outFileSet, uninstallerUnlinked := outFileSet }
  else
    { result := Except.error "makensis failed", uninstallerOutFileSet := outFileSet,
      uninstallerUnlinked := false }

/-- C4 (amended): for a non-portable build unit without a custom script, the
temporary uninstaller binary is deleted exactly when the parent compiler
invocation succeeds; when the parent invocation fails the unlink is skipped
and the temporary uninstaller remains on disk. -/
theorem uninstaller_unlinked_iff_parent_ok (p : Bool) :
    (runQueuedBuildTask false p).uninstallerOutFileSet = true ∧
    ((runQueuedBuildTask false p).uninstallerUnlinked = true ↔ p = true) := by
  cases p <;> simp [runQueuedBuildTask]

/-- C4 counterexample: when the parent compiler invocation fails, the
sub-build-produced uninstaller is not deleted — it stays behind as a stray
artifact, contradicting the claimed deletion on failure. -/
theorem uninstaller_stray_on_parent_failure :
    (runQueuedBuildTask false false).uninstallerOutFileSet = true ∧
    exceptIsOk (runQueuedBuildTask false false).result = false ∧
    (runQueuedBuildTask false false).uninstallerUnlinked = false :=
  ⟨rfl, rfl, rfl⟩

/-- Embedding of the per-architecture estimated-size accumulation of
`NsisTarget.buildInstaller` (NsisTarget.ts lines 289-299). Each element of the
list is the result of the regular-expression match over the archive-listing
output of `7za l` for one architecture: `none` when the listing failed to
parse (the code logs a warning and continues), `some v` for a parsed entry
size. The `Except` return mirrors that the loop body has no failure path. -/
def accumulateEstimatedSize : Nat → List (Option Nat) → Except String Nat
  | acc, [] => Except.ok acc
  | acc, m :: rest =>
    match m with
    | none => accumulateEstimatedSize acc rest
    | some v => accumulateEstimatedSize (acc + v) rest

/-- Sum of the parsed per-architecture sizes (failed parses contribute 0). -/
def sumParsedSizes (ms : List (Option Nat)) : Nat :=
  ms.foldl (fun a m => a + m.getD 0) 0

/-- Embedding of the `ESTIMATED_SIZE` define emission (NsisTarget.ts lines
319-322): the define is set to `Math.round(estimatedSize / 1024)` — for a
natural number this is `(e + 512) / 1024` — whenever the accumulated size is
nonzero, and omitted when it is zero. -/
def estimatedSizeDefine (ms : List (Option Nat)) : Option Nat :=
  match accumulateEstimatedSize 0 ms with
  | Except.ok e => if e ≠ 0 then some ((e + 512) / 1024) else none
  | Except.error _ => none

/-- C5 (amended): the estimated-size accumulation never fails — a parse
failure only skips that architecture's contribution — and the emitted
`ESTIMATED_SIZE` define is the rounded partial sum over the architectures
whose listing did parse; it is omitted exactly when that partial sum is zero
(in particular when every architecture's listing fails to parse), not whenever
some architecture fails. -/
theorem estimatedSize_partial_sum (ms : List (Option Nat)) :
    accumulateEstimatedSize 0 ms = Except.ok (sumParsedSizes ms) ∧
    (estimatedSizeDefine ms = none ↔ sumParsedSizes ms = 0) ∧
    ((∀ m ∈ ms, m = none) → estimatedSizeDefine ms = none) := by
  have aux : ∀ l acc, accumulateEstimatedSize acc l =
      Except.ok (l.foldl (fun a m => a + m.getD 0) acc) := by
    intro l
    induction l with
    | nil => intro acc; rfl
    | cons m rest ih => intro acc; cases m <;> simp [accumulateEstimatedSize, ih]
  have hsum := aux ms 0
  have part2 : estimatedSizeDefine ms = none ↔ sumParsedSizes ms = 0 := by
    unfold estimatedSizeDefine sumParsedSizes
    rw [aux ms 0]
    by_cases h : List.foldl (fun a m => a + m.getD 0) 0 ms = 0 <;> simp [h]
  refine ⟨hsum, part2, fun hall => part2.mpr ?_⟩
  have aux2 : ∀ l : List (Option Nat), (∀ m ∈ l, m = none) → ∀ acc,
      l.foldl (fun a m => a + m.getD 0) acc = acc := by
    intro l
    induction l with
    | nil => intro _ acc; rfl
    | cons m rest ih =>
      intro hl acc
      have hm : m = none := hl m (List.mem_cons_self m rest)
      subst hm
      simpa using ih (fun x hx => hl x (List.mem_cons_of_mem _ hx)) acc
  unfold sumParsedSizes
  exact aux2 ms hall 0

/-- C5 witness: when every architecture's listing fails to parse, the
`ESTIMATED_SIZE` define is omitted. -/
theorem estimatedSize_partial_sum_witness :
    estimatedSizeDefine [none, none] = none :=
  (estimatedSize_partial_sum [none, none]).2.2 (by decide)

/-- C5 counterexample: with one architecture parsed (1048576 bytes of entries)
and one failed, the `ESTIMATED_SIZE` define is still emitted, as the rounded
partial sum 1024 KiB — not omitted as the claim states. -/
theorem estimatedSize_emitted_despite_parse_failure :
    estimatedSizeDefine [some 1048576, none] = some 1024 := by decide

/-- Embedding of the update-metadata finalization of
`NsisTarget.buildInstaller` (NsisTarget.ts lines 365-374): update metadata is
produced for a web installer (`createNsisWebDifferentialUpdateInfo`) or for a
differential-aware build (`!isPortable && differentialPackage !== false`,
lines 99-101); the `isAdminRightsRequired` flag is then set only under
`isPerMachine && (oneClick || options.packElevateHelper)`, with
`isPerMachine = perMachine === true` and `oneClick = oneClick !== false`.
`some true`/`some false` model metadata with/without the flag set; `none`
models no update metadata. -/
def updateInfoAdminFlag (isWebInstaller isPortable : Bool) (o : NsisOptions) : Option Bool :=
  let isBuildDifferentialAware := !isPortable && neFalse o.differentialPackage
  let updateInfoProduced := isWebInstaller || isBuildDifferentialAware
  if updateInfoProduced then
    if obTrue o.perMachine && (neFalse o.oneClick || obTrue o.packElevateHelper) then some true
    else some false
  else none

/-- C6 (amended): the update metadata records `isAdminRightsRequired = true`
exactly when metadata is produced, the install is per-machine, and moreover
one-click mode is effective or the elevation helper is packaged — a packaged
elevation helper alone (without per-machine) does not set the flag. -/
theorem updateInfo_admin_rights_characterization (web portable : Bool) (o : NsisOptions) :
    updateInfoAdminFlag web portable o = some true ↔
      ((web || (!portable && neFalse o.differentialPackage)) = true ∧
        obTrue o.perMachine = true ∧
        (neFalse o.oneClick || obTrue o.packElevateHelper) = true) := by
  unfold updateInfoAdminFlag
  by_cases h1 : (web || (!portable && neFalse o.differentialPackage)) = true <;>
    by_cases h2 : (obTrue o.perMachine && (neFalse o.oneClick || obTrue o.packElevateHelper)) = true <;>
      simp_all

/-- Options that pack the elevation helper but install per-user. -/
def elevateHelperOpts : NsisOptions := { packElevateHelper := some true, perMachine := some false }

/-- C6 counterexample: with the elevation helper packaged but a per-user
install, update metadata is produced without the requires-admin-rights flag,
contradicting the claim that a packaged elevation helper alone implies
`isAdminRightsRequired = true`. -/
theorem updateInfo_admin_rights_not_set_for_elevate_helper :
    obTrue elevateHelperOpts.packElevateHelper = true ∧
    updateInfoAdminFlag false false elevateHelperOpts = some false := by decide

/-- JavaScript test `x === false` on an optional boolean field. -/
def obFalse : Option Bool → Bool
  | some false => true
  | _ => false

/-- Whether the first list is a leading segment of the second. -/
def leadsWith : List Char → List Char → Bool
  | [], _ => true
  | _ :: _, [] => false
  | a :: as, b :: bs => a == b && leadsWith as bs

/-- Whether `needle` occurs as a contiguous run inside the second list. -/
def containsSeq (needle : List Char) : List Char → Bool
  | [] => needle.isEmpty
  | c :: cs => leadsWith needle (c :: cs) || containsSeq needle cs

/-- JavaScript `hay.includes(needle)` on strings. -/
def stringIncludes (hay needle : String) : Bool := containsSeq needle.data hay.data

/-- The architecture token searched for in the artifact filename pattern. -/
def archTokenStr : String := "${arch}"

/-- Embedding of `NsisTarget.shouldBuildUniversalInstaller` (NsisTarget.ts
lines 86-89): separate per-arch installers only when
`buildUniversalInstaller === false`. -/
def shouldBuildUniversalInstaller (o : NsisOptions) : Bool :=
  !(obFalse o.buildUniversalInstaller)

/-- Embedding of the build-unit scheduling of `NsisTarget.finishBuild`
(NsisTarget.ts lines 149-168). When the universal installer is disabled the
per-arch builds already ran eagerly in `build()` and `finishBuild` schedules
nothing; otherwise it builds a set seeded with the full registered
architecture map and, when the filename pattern contains the architecture
token and more than one architecture is registered, adds one fresh
single-architecture map per architecture (each `new Map()` is a distinct
object, so the JS `Set` keeps them all); `buildInstaller` is then invoked once
per element. -/
def finishBuildUnits (o : NsisOptions) (pattern : String) (archs : List (Arch × String)) :
    List (List (Arch × String)) :=
  if !(shouldBuildUniversalInstaller o) then []
  else
    [archs] ++ (if stringIncludes pattern archTokenStr && decide (1 < archs.length)
      then archs.map (fun p => [p]) else [])

/-- C7: with exactly two registered architectures, an artifact filename
pattern containing the architecture token, and the universal build enabled,
`finishBuild` schedules exactly three installer builds: one covering both
architectures and one per individual architecture. -/
theorem finishBuild_three_units (o : NsisOptions) (pattern : String)
    (archs : List (Arch × String))
    (hUniversal : obFalse o.buildUniversalInstaller = false)
    (hLen : archs.length = 2)
    (hTok : stringIncludes pattern archTokenStr = true) :
    (finishBuildUnits o pattern archs).length = 3 ∧
    finishBuildUnits o pattern archs = [archs] ++ archs.map (fun p => [p]) := by
  unfold finishBuildUnits shouldBuildUniversalInstaller
  simp [hUniversal, hTok, hLen]

/-- Two registered architectures with their payload directories. -/
def twoArchDirs : List (Arch × String) := [(Arch.x64, "dist-x64"), (Arch.arm64, "dist-arm64")]

/-- An artifact filename pattern that contains the architecture token. -/
def archNamePattern : String := "${productName} Setup ${version}-${arch}.${ext}"

/-- C7 witness: default options, two architectures, and an arch-token pattern
yield exactly three scheduled builds. -/
theorem finishBuild_three_units_witness :
    (finishBuildUnits {} archNamePattern twoArchDirs).length = 3 ∧
    finishBuildUnits {} archNamePattern twoArchDirs =
      [twoArchDirs] ++ twoArchDirs.map (fun p => [p]) :=
  finishBuild_three_units {} archNamePattern twoArchDirs (by decide) (by decide) (by decide)

/-- A byte, as produced by `Buffer.from(..., "base64")`. -/
abbrev Byte := Fin 256

/-- Truncate a natural number to one byte. -/
def byteOf (n : Nat) : Byte := ⟨n % 256, Nat.mod_lt n (by omega)⟩

/-- The standard base64 alphabet used by Node's base64 codec. -/
def b64AlphabetChars : List Char :=
  "ABCDEFGHIJKLMNOPQRSTUVWXYZabcdefghijklmnopqrstuvwxyz0123456789+/".data

/-- Index of a character in a list (length of the list when absent). -/
def charIndexIn : List Char → Char → Nat
  | [], _ => 0
  | a :: as, c => if a == c then 0 else charIndexIn as c + 1

/-- Value of a base64 alphabet character. -/
def b64CharVal (c : Char) : Nat := charIndexIn b64AlphabetChars c

/-- Base64 alphabet character for a 6-bit value. -/
def b64Char (n : Nat) : Char := b64AlphabetChars.getD n 'A'

/-- Standard base64 encoding of a byte list (three bytes per four characters,
`=`-padded), as produced by `Buffer.prototype.toString("base64")`. -/
def b64EncodeChunks : List Byte → List Char
  | [] => []
  | [x] =>
    let n := x.val * 65536
    [b64Char (n / 262144), b64Char (n / 4096 % 64), '=', '=']
  | [x, y] =>
    let n := x.val * 65536 + y.val * 256
    [b64Char (n / 262144), b64Char (n / 4096 % 64), b64Char (n / 64 % 64), '=']
  | x :: y :: z :: rest =>
    let n := x.val * 65536 + y.val * 256 + z.val
    [b64Char (n / 262144), b64Char (n / 4096 % 64), b64Char (n / 64 % 64), b64Char (n % 64)]
      ++ b64EncodeChunks rest

/-- String-level base64 encoding. -/
def base64encode (bs : List Byte) : String := String.mk (b64EncodeChunks bs)

/-- Standard base64 decoding of a character list (four characters per chunk,
honouring `=` padding), as performed by `Buffer.from(s, "base64")` on
canonical input. -/
def b64DecodeChunks : List Char → List Byte
  | a :: b :: c :: d :: rest =>
    if c == '=' then
      [byteOf (b64CharVal a * 4 + b64CharVal b / 16)]
    else if d == '=' then
      let n := b64CharVal a * 1024 + b64CharVal b * 16 + b64CharVal c / 4
      [byteOf (n / 256), byteOf n]
    else
      let n := b64CharVal a * 262144 + b64CharVal b * 4096 + b64CharVal c * 64 + b64CharVal d
      byteOf (n / 65536) :: byteOf (n / 256) :: byteOf n :: b64DecodeChunks rest
  | _ => []

/-- String-level base64 decoding. -/
def base64decode (s : String) : List Byte := b64DecodeChunks s.data

/-- The lowercase hexadecimal digit alphabet of `Buffer.prototype.toString("hex")`. -/
def hexDigitChars : List Char := "0123456789abcdef".data

/-- Lowercase hexadecimal digit of a nibble value. -/
def hexDigitL (n : Nat) : Char := hexDigitChars.getD n '0'

/-- Lowercase hex encoding of a byte list (`Buffer.prototype.toString("hex")`). -/
def hexEncodeChars : List Byte → List Char
  | [] => []
  | b :: bs => hexDigitL (b.val / 16) :: hexDigitL (b.val % 16) :: hexEncodeChars bs

/-- Nibble value of a hexadecimal digit, accepting both cases. -/
def hexNibbleVal (c : Char) : Fin 16 :=
  match c with
  | '0' => 0 | '1' => 1 | '2' => 2 | '3' => 3 | '4' => 4
  | '5' => 5 | '6' => 6 | '7' => 7 | '8' => 8 | '9' => 9
  | 'a' => 10 | 'b' => 11 | 'c' => 12 | 'd' => 13 | 'e' => 14 | 'f' => 15
  | 'A' => 10 | 'B' => 11 | 'C' => 12 | 'D' => 13 | 'E' => 14 | 'F' => 15
  | _ => 0

/-- Byte from a high and a low nibble. -/
def byteFromNibbles (hi lo : Fin 16) : Byte := ⟨hi.val * 16 + lo.val, by omega⟩

/-- Hex decoding of a character list back to bytes, two digits per byte. -/
def hexDecodeChars : List Char → List Byte
  | a :: b :: rest => byteFromNibbles (hexNibbleVal a) (hexNibbleVal b) :: hexDecodeChars rest
  | _ => []

/-- ASCII uppercasing of a string (`String.prototype.toUpperCase()` restricted
to the ASCII output of the hex encoder). -/
def toUpperAscii (s : String) : String := String.mk (s.data.map Char.toUpper)

/-- Embedding of the per-architecture hash define computation of
`NsisTarget.buildInstaller` (NsisTarget.ts line 274):
`Buffer.from(fileInfo.sha512, "base64").toString("hex").toUpperCase()`. -/
def appHashDefine (sha512 : String) : String :=
  toUpperAscii (String.mk (hexEncodeChars (base64decode sha512)))

theorem hexNibble_upper (n : Nat) (h : n < 16) :
    (hexNibbleVal (Char.toUpper (hexDigitL n))).val = n := by
  interval_cases n <;> decide

theorem hexEncode_upper_roundTrip (bs : List Byte) :
    hexDecodeChars ((hexEncodeChars bs).map Char.toUpper) = bs := by
  induction bs with
  | nil => rfl
  | cons b bs ih =>
    have hhi : b.val / 16 < 16 := by omega
    have hlo : b.val % 16 < 16 := by omega
    show byteFromNibbles (hexNibbleVal (Char.toUpper (hexDigitL (b.val / 16))))
        (hexNibbleVal (Char.toUpper (hexDigitL (b.val % 16)))) ::
        hexDecodeChars ((hexEncodeChars bs).map Char.toUpper) = b :: bs
    rw [ih]
    congr 1
    apply Fin.ext
    show (hexNibbleVal (Char.toUpper (hexDigitL (b.val / 16)))).val * 16 +
        (hexNibbleVal (Char.toUpper (hexDigitL (b.val % 16)))).val = b.val
    rw [hexNibble_upper (b.val / 16) hhi, hexNibble_upper (b.val % 16) hlo]
    omega

/-- C8: for every canonical base64 sha512 string supplied by the hashing
collaborator, decoding the uppercase-hexadecimal define value back to bytes
and re-encoding those bytes as base64 yields exactly the original base64
string (canonicality — being in the image of the encoder — is exactly what
`hashFile`'s `digest("base64")` guarantees). -/
theorem appHashDefine_roundTrip (s : String)
    (hCanonical : base64encode (base64decode s) = s) :
    base64encode (hexDecodeChars (appHashDefine s).data) = s := by
  have h1 : (appHashDefine s).data = (hexEncodeChars (base64decode s)).map Char.toUpper := rfl
  rw [h1, hexEncode_upper_roundTrip, hCanonical]

/-- A canonical base64 sha512-length sample value (64 bytes). -/
def sampleSha512B64 : String :=
  "AAECAwQFBgcICQoLDA0ODxAREhMUFRYXGBkaGxwdHh8gISIjJCUmJygpKissLS4vMDEyMzQ1Njc4OTo7PD0+Pw=="

set_option maxRecDepth 40000 in
/-- C8 witness: the round trip evaluated on a concrete canonical 64-byte
base64 hash value. -/
theorem appHashDefine_roundTrip_witness :
    base64encode (base64decode sampleSha512B64) = sampleSha512B64 ∧
    base64encode (hexDecodeChars (appHashDefine sampleSha512B64).data) = sampleSha512B64 :=
  ⟨by decide, appHashDefine_roundTrip sampleSha512B64 (by decide)⟩

/-- Detected native architecture at installer runtime (`IsNativeARM64` /
`IsNativeAMD64` / neither). -/
inductive NativeArch where
  | arm64
  | amd64
  | other
deriving DecidableEq, Repr

/-- Runtime environment of the generated web installer's
`installApplicationFiles` macro: the `package-file` command-line parameter
(empty string when absent, as returned by `StdUtils.GetParameter` with default
`""`), `$EXEDIR`, the `APP_*_NAME`/`APP_*_HASH` define pairs baked into the
script (absent defines are `none`), the detected native architecture, the
`RunningX64` test, and the filesystem/hash oracles (`FileExists`,
`StdUtils.HashFile SHA2-512`). -/
structure WebInstallEnv where
  packageFileParam : String
  exeDir : String
  app64 : Option (String × String) := none
  app32 : Option (String × String) := none
  appArm64 : Option (String × String) := none
  nativeArch : NativeArch := .amd64
  runningX64 : Bool := true
  fileExists : String → Bool
  hashFile : String → String

/-- The architecture-default payload selection of `installApplicationFiles`
(the nested `!ifdef APP_64_NAME` / `APP_32_NAME` / `APP_ARM64_NAME` block,
macro lines 19-48): picks the name/hash pair for the detected architecture.
`none` when a name define the script would reference is missing. -/
def selectDefaultPackage (env : WebInstallEnv) : Option (String × String) :=
  match env.app64 with
  | some p64 =>
    match env.app32 with
    | some p32 =>
      match env.appArm64 with
      | some pArm =>
        match env.nativeArch with
        | NativeArch.arm64 => some pArm
        | NativeArch.amd64 => some p64
        | NativeArch.other => some p32
      | none => if env.runningX64 then some p64 else some p32
    | none => some p64
  | none => env.app32

/-- Observable outcome of `installApplicationFiles` for the web installer:
the `$packageFile` value at the existence check, whether it was explicitly
specified, whether the SHA2-512 checksum was computed and compared, and
whether `downloadApplicationFiles` ran. -/
structure WebInstallResult where
  packageFile : String
  explicitlySpecified : Bool
  hashChecked : Bool
  downloaded : Bool
deriving DecidableEq, Repr

/-- Embedding of the web-installer branch of the `installApplicationFiles`
macro (src/unnamed/part_000 lines 13-75, the `APP_PACKAGE_URL` case): when the
runtime `package-file` parameter is empty the architecture-default payload is
selected and prefixed with `$EXEDIR/`; the local file is used only when it
exists and its SHA2-512 hash equals the hash define, otherwise the package is
downloaded; when the parameter is non-empty it is used directly, with no hash
validation, and the package is downloaded only if the given path does not
exist. -/
def installApplicationFilesWeb (env : WebInstallEnv) : Option WebInstallResult :=
  if env.packageFileParam == "" then
    match selectDefaultPackage env with
    | none => none
    | some (name, hash) =>
      let pf := env.exeDir ++ "/" ++ name
      if env.fileExists pf then
        if env.hashFile pf == hash then
          some { packageFile := pf, explicitlySpecified := false, hashChecked := true,
                 downloaded := false }
        else
          some { packageFile := pf, explicitlySpecified := false, hashChecked := true,
                 downloaded := true }
      else
        some { packageFile := pf, explicitlySpecified := false, hashChecked := false,
               downloaded := true }
  else
    let pf := env.packageFileParam
    if env.fileExists pf then
      some { packageFile := pf, explicitlySpecified := true, hashChecked := false,
             downloaded := false }
    else
      some { packageFile := pf, explicitlySpecified := true, hashChecked := false,
             downloaded := true }

/-- C9: when the runtime `package-file` parameter is supplied and non-empty,
the supplied path is used as the package file, no hash is validated, and the
architecture-default payload selection is skipped entirely — the result is
invariant under every name/hash define, native architecture, and `RunningX64`
value. -/
theorem packageFileParam_takes_precedence (env : WebInstallEnv)
    (h : env.packageFileParam ≠ "") :
    installApplicationFilesWeb env =
      some { packageFile := env.packageFileParam, explicitlySpecified := true,
             hashChecked := false, downloaded := !(env.fileExists env.packageFileParam) } ∧
    (∀ a64 a32 aArm na rx,
      installApplicationFilesWeb
          { env with
            app64 := a64, app32 := a32, appArm64 := aArm,
            nativeArch := na, runningX64 := rx } = installApplicationFilesWeb env) := by
  have hb : (env.packageFileParam == "") = false := by
    simpa using h
  constructor
  · unfold installApplicationFilesWeb
    rw [hb]
    by_cases hf : env.fileExists env.packageFileParam <;> simp [hf]
  · intro a64 a32 aArm na rx
    unfold installApplicationFilesWeb
    simp only [hb]
    by_cases hf : env.fileExists env.packageFileParam <;> simp [hf]

/-- A web-installer runtime where the `package-file` parameter is given. -/
def explicitParamEnv : WebInstallEnv :=
  { packageFileParam := "C:\\updates\\pkg.7z", exeDir := "C:\\setup",
    app64 := some ("app-x64.nsis.7z", "AB"),
    fileExists := fun _ => true, hashFile := fun _ => "CD" }

/-- C9 witness: with an explicit existing `package-file` parameter the
supplied path is extracted as-is, without download. -/
theorem packageFileParam_takes_precedence_witness :
    installApplicationFilesWeb explicitParamEnv =
      some { packageFile := "C:\\updates\\pkg.7z", explicitlySpecified := true,
             hashChecked := false, downloaded := false } := by
  have h := (packageFileParam_takes_precedence explicitParamEnv (by decide)).1
  simpa using h

/-- C10: the web installer's checksum validation is asymmetric. An explicitly
supplied existing `package-file` is used as-is with no hash computation (the
result does not depend on the hash oracle at all); a locally found
architecture-default package is used only when its SHA2-512 hash equals the
hash define baked in at build time, and on mismatch the local file is ignored
and the package is downloaded instead. -/
theorem web_checksum_validation_asymmetry (env : WebInstallEnv) :
    (env.packageFileParam ≠ "" → env.fileExists env.packageFileParam = true →
      installApplicationFilesWeb env =
        some { packageFile := env.packageFileParam, explicitlySpecified := true,
               hashChecked := false, downloaded := false } ∧
      (∀ hf, installApplicationFilesWeb { env with hashFile := hf } =
        installApplicationFilesWeb env)) ∧
    (∀ name hash, env.packageFileParam = "" →
      selectDefaultPackage env = some (name, hash) →
      env.fileExists (env.exeDir ++ "/" ++ name) = true →
      ((env.hashFile (env.exeDir ++ "/" ++ name) = hash →
        installApplicationFilesWeb env =
          some { packageFile := env.exeDir ++ "/" ++ name, explicitlySpecified := false,
                 hashChecked := true, downloaded := false }) ∧
       (env.hashFile (env.exeDir ++ "/" ++ name) ≠ hash →
        installApplicationFilesWeb env =
          some { packageFile := env.exeDir ++ "/" ++ name, explicitlySpecified := false,
                 hashChecked := true, downloaded := true }))) := by
  constructor
  · intro h hex
    have hb : (env.packageFileParam == "") = false := by simpa using h
    constructor
    · unfold installApplicationFilesWeb
      rw [hb]
      simp [hex]
    · intro hf
      unfold installApplicationFilesWeb
      simp only [hb]
      simp [hex]
  · intro name hash hblank hsel hex
    have hb : (env.packageFileParam == "") = true := by simpa using hblank
    constructor
    · intro hmatch
      unfold installApplicationFilesWeb
      rw [hb]
      simp only [hsel]
      simp [hex, hmatch]
    · intro hmismatch
      unfold installApplicationFilesWeb
      rw [hb]
      simp only [hsel]
      have hbne : (env.hashFile (env.exeDir ++ "/" ++ name) == hash) = false := by
        simpa using hmismatch
      simp [hex, hbne]

/-- A web-installer runtime without the parameter, whose local default package
exists with a matching hash. -/
def defaultSelectEnv : WebInstallEnv :=
  { packageFileParam := "", exeDir := "C:\\setup",
    app64 := some ("app-x64.nsis.7z", "ABCD"),
    fileExists := fun _ => true, hashFile := fun _ => "ABCD" }

/-- C10 witness: the locally found default package with a matching hash is
used without download. -/
theorem web_checksum_validation_asymmetry_witness :
    installApplicationFilesWeb defaultSelectEnv =
      some { packageFile := defaultSelectEnv.exeDir ++ "/" ++ "app-x64.nsis.7z",
             explicitlySpecified := false, hashChecked := true, downloaded := false } :=
  ((web_checksum_validation_asymmetry defaultSelectEnv).2 "app-x64.nsis.7z" "ABCD"
    rfl rfl rfl).1 rfl

end NsisTargetModel
